import Mathlib

/-!
Verification development for the casper-sidecar repository.

The repository contains two generations of the same service: the legacy crate
rooted at `src/` (modules `sqlite_database/reader.rs`, `main.rs`) and the newer
`sidecar/` crate (modules `database/reader_generator.rs`, `main.rs`,
`event_stream_server/sse_server.rs`).  Both are embedded below.  External
collaborators (the sqlx connection pool, serde_json, the tokio broadcast
channel) are represented as explicit function-valued parameters or as small
executable models, as noted at each definition.
-/

namespace CasperSidecar

/-! ## Hex-format checks (sqlite_database/reader.rs lines 340-365, 44-53) -/

/-- One character of the regex character class `[0-9A-Fa-f]`. -/
def isHexChar (c : Char) : Bool :=
  (('0' ≤ c) && (c ≤ '9')) || (('A' ≤ c) && (c ≤ 'F')) || (('a' ≤ c) && (c ≤ 'f'))

/-- The regex `^([0-9A-Fa-f]){64}$` used by `check_hash_is_correct_format` and
(with the class spelled `[A-Fa-f0-9]`) by `get_block_by_hash`: exactly 64
hexadecimal characters. -/
def matchesHash64 (s : String) : Bool :=
  s.length == 64 && s.data.all isHexChar

/-- The regex `^([0-9A-Fa-f]{2}){33,34}$` used by
`check_public_key_is_correct_format`: 33 or 34 pairs of hexadecimal
characters, i.e. exactly 66 or 68 hexadecimal characters. -/
def matchesPublicKeyHex (s : String) : Bool :=
  (s.length == 66 || s.length == 68) && s.data.all isHexChar

/-! ## Error type of the legacy store read API

`types/database.rs` is not part of the provided sources; the variants are
taken from their uses in `sqlite_database/reader.rs` (`NotFound`,
`InvalidParam`, `Unhandled`, and the wrapped query / serde errors produced by
`wrap_query_error`, collected here in the `Serialization` variant). -/

inductive DatabaseRequestError
  | NotFound
  | InvalidParam (msg : String)
  | Serialization (msg : String)
  | Unhandled (msg : String)
deriving DecidableEq, Repr

/-- Whether a read result is an `InvalidParam` error. -/
def isInvalidParamResult {α : Type} : Except DatabaseRequestError α → Bool
  | .error (.InvalidParam _) => true
  | _ => false

/-- `check_hash_is_correct_format` (reader.rs lines 340-351).  The
`Regex::new` call on the constant, valid pattern cannot fail, so the
`Unhandled` arm for a regex-compilation error is unreachable and omitted. -/
def check_hash_is_correct_format (hash : String) : Except DatabaseRequestError Unit :=
  if matchesHash64 hash then .ok ()
  else .error (.InvalidParam
    ("Expected hex-encoded hash (64 chars), received: " ++ hash ++
      " (length: " ++ toString hash.length ++ ")"))

/-- `check_public_key_is_correct_format` (reader.rs lines 353-365). -/
def check_public_key_is_correct_format (public_key_hex : String) :
    Except DatabaseRequestError Unit :=
  if matchesPublicKeyHex public_key_hex then .ok ()
  else .error (.InvalidParam
    ("Expected hex-encoded public key (66/68 chars), received: " ++ public_key_hex ++
      " (length: " ++ toString public_key_hex.length ++ ")"))

/-! ## The legacy sqlite store reader (src/src/sqlite_database/reader.rs)

Row payload types.  The deserialized event payloads are opaque to every
claim under study, so each is a single-field wrapper around the token the
model's serde layer produced for it. -/

structure BlockAdded where
  payload : String
deriving DecidableEq, Repr

structure DeployAccepted where
  payload : String
deriving DecidableEq, Repr

structure DeployProcessed where
  payload : String
deriving DecidableEq, Repr

structure Fault where
  payload : String
deriving DecidableEq, Repr

structure FinSig where
  payload : String
deriving DecidableEq, Repr

/-- The sqlx connection pool is an external collaborator; each statement
built in `reader.rs` becomes one function from the bound parameter to the
query outcome.  `Except String _` carries a transport error (mapped to
`Unhandled` by the reader); a row is represented by its `raw` column. -/
structure SqliteConn where
  fetch_block_added : String → Except String (Option String)
  fetch_deploy_accepted : String → Except String (Option String)
  fetch_deploy_processed : String → Except String (Option String)
  fetch_deploy_expired : String → Except String (Option String)
  fetch_faults_by_public_key : String → Except String (List String)
  fetch_finality_signatures : String → Except String (List String)

/-- serde_json is an external collaborator; `deserialize_data::<T>` becomes
one partial function per target type. -/
structure SqliteSerde where
  block_added? : String → Option BlockAdded
  deploy_accepted? : String → Option DeployAccepted
  deploy_processed? : String → Option DeployProcessed
  fault? : String → Option Fault
  fin_sig? : String → Option FinSig

structure SqliteDatabase where
  conn : SqliteConn
  serde : SqliteSerde

/-- `get_block_by_hash` (reader.rs lines 44-68): inline 64-hex check, then
`fetch_optional`; `None` maps to `NotFound`, a row is parsed via
`parse_block_from_row`. -/
def get_block_by_hash (self : SqliteDatabase) (hash : String) :
    Except DatabaseRequestError BlockAdded :=
  if !matchesHash64 hash then
    .error (.InvalidParam
      ("Expected hex-encoded block hash (64 chars), received: " ++ hash ++
        " (length: " ++ toString hash.length ++ ")"))
  else
    match self.conn.fetch_block_added hash with
    | .error e => .error (.Unhandled e)
    | .ok none => .error .NotFound
    | .ok (some raw) =>
      match self.serde.block_added? raw with
      | none => .error (.Serialization raw)
      | some b => .ok b

/-- `get_deploy_accepted_by_hash` (reader.rs lines 137-161). -/
def get_deploy_accepted_by_hash (self : SqliteDatabase) (hash : String) :
    Except DatabaseRequestError DeployAccepted :=
  match check_hash_is_correct_format hash with
  | .error e => .error e
  | .ok () =>
  match self.conn.fetch_deploy_accepted hash with
  | .error e => .error (.Unhandled e)
  | .ok none => .error .NotFound
  | .ok (some raw) =>
    match self.serde.deploy_accepted? raw with
    | none => .error (.Serialization raw)
    | some v => .ok v

/-- `get_deploy_processed_by_hash` (reader.rs lines 163-187). -/
def get_deploy_processed_by_hash (self : SqliteDatabase) (hash : String) :
    Except DatabaseRequestError DeployProcessed :=
  match check_hash_is_correct_format hash with
  | .error e => .error e
  | .ok () =>
  match self.conn.fetch_deploy_processed hash with
  | .error e => .error (.Unhandled e)
  | .ok none => .error .NotFound
  | .ok (some raw) =>
    match self.serde.deploy_processed? raw with
    | none => .error (.Serialization raw)
    | some v => .ok v

/-- `get_deploy_expired_by_hash` (reader.rs lines 189-205): presence of the
row yields `Ok(true)`, absence yields `NotFound`. -/
def get_deploy_expired_by_hash (self : SqliteDatabase) (hash : String) :
    Except DatabaseRequestError Bool :=
  match check_hash_is_correct_format hash with
  | .error e => .error e
  | .ok () =>
  match self.conn.fetch_deploy_expired hash with
  | .error e => .error (.Unhandled e)
  | .ok none => .error .NotFound
  | .ok (some _) => .ok true

/-- The Rust source guards error propagation in `get_deploy_aggregate_by_hash`
with `!matches!(DatabaseRequestError::NotFound, _err)`.  The `matches!` macro
there tests the expression `DatabaseRequestError::NotFound` against the
pattern `_err`; `_err` is an irrefutable binding pattern, so the macro
evaluates to `true` for every error value, and the guarded `return Err(err)`
is dead code. -/
def matches_not_found_wildcard : Bool := true

/-- The composite returned by `get_deploy_aggregate_by_hash`. -/
structure AggregateDeployInfo where
  deploy_hash : String
  deploy_accepted : Option DeployAccepted
  deploy_processed : Option DeployProcessed
  deploy_expired : Bool
deriving DecidableEq, Repr

/-- `get_deploy_aggregate_by_hash` (reader.rs lines 92-135), translated
branch for branch, including the dead `matches!` guards. -/
def get_deploy_aggregate_by_hash (self : SqliteDatabase) (hash : String) :
    Except DatabaseRequestError AggregateDeployInfo :=
  match check_hash_is_correct_format hash with
  | .error e => .error e
  | .ok () =>
  match get_deploy_accepted_by_hash self hash with
  | .error e => .error e
  | .ok deploy_accepted =>
    match get_deploy_processed_by_hash self hash with
    | .ok deploy_processed =>
      .ok ⟨hash, some deploy_accepted, some deploy_processed, false⟩
    | .error err =>
      if !matches_not_found_wildcard then .error err
      else
        match get_deploy_expired_by_hash self hash with
        | .ok deploy_has_expired =>
          .ok ⟨hash, some deploy_accepted, none, deploy_has_expired⟩
        | .error err2 =>
          if !matches_not_found_wildcard then .error err2
          else .ok ⟨hash, some deploy_accepted, none, false⟩

/-- `get_faults_by_public_key` (reader.rs lines 227-243) with
`parse_faults_from_rows`: parse every row, then empty result maps to
`NotFound`. -/
def get_faults_by_public_key (self : SqliteDatabase) (public_key : String) :
    Except DatabaseRequestError (List Fault) :=
  match check_public_key_is_correct_format public_key with
  | .error e => .error e
  | .ok () =>
  match self.conn.fetch_faults_by_public_key public_key with
  | .error e => .error (.Unhandled e)
  | .ok rows =>
    let parsed := rows.mapM (fun raw => self.serde.fault? raw)
    match parsed with
    | none => .error (.Serialization "fault row")
    | some faults =>
      if faults.isEmpty then .error .NotFound else .ok faults

/-- `get_finality_signatures_by_block` (reader.rs lines 257-275) with
`parse_finality_signatures_from_rows`. -/
def get_finality_signatures_by_block (self : SqliteDatabase) (block_hash : String) :
    Except DatabaseRequestError (List FinSig) :=
  match check_hash_is_correct_format block_hash with
  | .error e => .error e
  | .ok () =>
  match self.conn.fetch_finality_signatures block_hash with
  | .error e => .error (.Unhandled e)
  | .ok rows =>
    let parsed := rows.mapM (fun raw => self.serde.fin_sig? raw)
    match parsed with
    | none => .error (.Serialization "finality signature row")
    | some sigs =>
      if sigs.isEmpty then .error .NotFound else .ok sigs

/-! ## The generated sidecar store reader (sidecar/src/database/reader_generator.rs)

The newer crate's error enum `DatabaseReadError` has the same shape as the
legacy `DatabaseRequestError` (`NotFound`, `Unhandled`, and wrapped query /
serde errors). -/

inductive DatabaseReadError
  | NotFound
  | Serialization (msg : String)
  | Unhandled (msg : String)
deriving DecidableEq, Repr

/-- Whether a sidecar read result is `NotFound`. -/
def isNotFoundReadResult {α : Type} : Except DatabaseReadError α → Bool
  | .error .NotFound => true
  | _ => false

structure SidecarConn where
  fetch_block_added : String → Except String (Option String)

structure SidecarSerde where
  block_added? : String → Option BlockAdded

structure SidecarDatabase where
  conn : SidecarConn
  serde : SidecarSerde

namespace Sidecar

/-- `get_block_by_hash` as generated by `database_reader_implementation!`
(reader_generator.rs lines 46-60).  Unlike the legacy reader, there is no
hex-format check: the hash is bound into the query as-is. -/
def get_block_by_hash (self : SidecarDatabase) (hash : String) :
    Except DatabaseReadError BlockAdded :=
  match self.conn.fetch_block_added hash with
  | .error e => .error (.Unhandled e)
  | .ok none => .error .NotFound
  | .ok (some raw) =>
    match self.serde.block_added? raw with
    | none => .error (.Serialization raw)
    | some b => .ok b

end Sidecar

/-- A sidecar database over an empty `block_added` table. -/
def sidecarEmptyDatabase : SidecarDatabase where
  conn := { fetch_block_added := fun _ => .ok none }
  serde := { block_added? := fun _ => none }

/-! ## Event model shared by the processors and the SSE server -/

/-- `casper_event_types::Filter`: the tag of the upstream endpoint an event
was received from. -/
inductive SseFilter
  | Events
  | Main
  | Deploys
  | Sigs
  | Sidecar
deriving DecidableEq, Repr

/-- `SseData`, the tagged union of event kinds.  Payloads are opaque to every
claim under study and are carried as abstract tokens with the field layout
of the source variants. -/
inductive SseData
  | ApiVersion (version : String)
  | SidecarVersion (version : String)
  | BlockAdded (block_hash : String) (block : String)
  | DeployAccepted (deploy : String)
  | DeployProcessed (deploy_hash : String) (account : String) (timestamp : String)
      (ttl : String) (dependencies : String) (block_hash : String)
      (execution_result : String)
  | DeployExpired (deploy_hash : String)
  | Fault (era_id : String) (timestamp : String) (public_key : String)
  | FinalitySignature (payload : String)
  | Step (era_id : String) (execution_effect : String)
  | Shutdown
deriving DecidableEq, Repr

/-- A panic (`unwrap` on `None` / `Err`): the claims treat panics as outside
the contract, so the embedding surfaces them as an explicit outcome. -/
inductive Panicked
  | panic
deriving DecidableEq, Repr

/-! ## The sidecar processor (sidecar/src/main.rs, `sse_processor`) -/

/-- Save errors of the `DatabaseWriter` (spec taxonomy: duplicate-key
rejections and any other database error). -/
inductive DatabaseWriteError
  | DuplicateEntry
  | Unhandled (msg : String)
deriving DecidableEq, Repr

/-- The event envelope produced by `casper_event_listener`
(`consume_combine_streams`): an optional id, the parsed data and the source
endpoint tag. -/
structure SseEvent where
  id : Option Nat
  data : SseData
  source : SseFilter
deriving DecidableEq, Repr

/-- The `SqliteDatabase` writer half as used by `sse_processor`: one save
method per typed event, state-passing over an abstract database state `σ`.
Each call receives the payload, the (unwrapped) event id and the source. -/
structure SqliteWriter (σ : Type) where
  save_block_added : σ → String × String → Nat → SseFilter → σ × Except DatabaseWriteError Unit
  save_deploy_accepted : σ → String → Nat → SseFilter → σ × Except DatabaseWriteError Unit
  save_deploy_processed : σ → String → Nat → SseFilter → σ × Except DatabaseWriteError Unit
  save_deploy_expired : σ → String → Nat → SseFilter → σ × Except DatabaseWriteError Unit
  save_fault : σ → String × String × String → Nat → SseFilter → σ × Except DatabaseWriteError Unit
  save_finality_signature : σ → String → Nat → SseFilter → σ × Except DatabaseWriteError Unit
  save_step : σ → String × String → Nat → SseFilter → σ × Except DatabaseWriteError Unit

/-- Dispatches a typed event to the corresponding save method, mirroring the
seven identically shaped arms of `sse_processor`'s match.  Non-typed kinds
never reach this function; they return the state unchanged. -/
def saveTyped {σ : Type} (db : SqliteWriter σ) (d : SseData) (s : σ) (id : Nat)
    (source : SseFilter) : σ × Except DatabaseWriteError Unit :=
  match d with
  | .BlockAdded block_hash block => db.save_block_added s (block_hash, block) id source
  | .DeployAccepted deploy => db.save_deploy_accepted s deploy id source
  | .DeployProcessed deploy_hash account timestamp ttl dependencies block_hash execution_result =>
      db.save_deploy_processed s
        (deploy_hash ++ account ++ timestamp ++ ttl ++ dependencies ++ block_hash ++
          execution_result) id source
  | .DeployExpired deploy_hash => db.save_deploy_expired s deploy_hash id source
  | .Fault era_id timestamp public_key => db.save_fault s (era_id, timestamp, public_key) id source
  | .FinalitySignature payload => db.save_finality_signature s payload id source
  | .Step era_id execution_effect => db.save_step s (era_id, execution_effect) id source
  | _ => (s, .ok ())

/-- Observable actions of a processor run: a completed save with its result,
and a broadcast to the event-stream server.  The error type `ε` is
`DatabaseWriteError` for the sidecar processor and a plain message for the
legacy one. -/
inductive ProcessorAction (ε : Type)
  | save (data : SseData) (res : Except ε Unit)
  | broadcast (data : SseData)
deriving Repr

/-- How `sse_processor`'s match treats one event kind: `ApiVersion` is only
logged; every typed kind is persisted; `Shutdown` breaks the loop.
`SidecarVersion` never occurs on the inbound stream; its arm is vacuous and
classified with `ApiVersion`. -/
inductive ProcessorStep
  | logOnly
  | persist
  | stop
deriving DecidableEq, Repr

def SseData.processorStep : SseData → ProcessorStep
  | .ApiVersion _ => .logOnly
  | .SidecarVersion _ => .logOnly
  | .Shutdown => .stop
  | _ => .persist

/-- `sse_processor` (sidecar/src/main.rs lines 115-268) over a finite ingest
stream.  `ApiVersion` is logged only; a typed event is saved (note the
`sse_event.id.unwrap()` in the source, which panics when the id is absent)
and broadcast exactly when the save returned `Ok`. -/
def sse_processor {σ : Type} (db : SqliteWriter σ) :
    List SseEvent → σ → Except Panicked (List (ProcessorAction DatabaseWriteError))
  | [], _ => .ok []
  | e :: rest, s =>
    match e.data.processorStep with
    | .logOnly => sse_processor db rest s
    | .stop => .ok []
    | .persist =>
      match e.id with
      | none => .error .panic
      | some id =>
        match saveTyped db e.data s id e.source with
        | (s', .ok ()) =>
          (sse_processor db rest s').map
            (fun t => .save e.data (.ok ()) :: .broadcast e.data :: t)
        | (s', .error err) =>
          (sse_processor db rest s').map (fun t => .save e.data (.error err) :: t)

/-- Traces in which every broadcast is immediately preceded by an `Ok` save
of the same event, and a failed save is never followed by a broadcast of its
event occurrence. -/
inductive BroadcastOnlyAfterOkSave {ε : Type} : List (ProcessorAction ε) → Prop
  | nil : BroadcastOnlyAfterOkSave []
  | saveOk {d : SseData} {t : List (ProcessorAction ε)} :
      BroadcastOnlyAfterOkSave t →
      BroadcastOnlyAfterOkSave (.save d (.ok ()) :: .broadcast d :: t)
  | saveErr {d : SseData} {e : ε} {t : List (ProcessorAction ε)} :
      BroadcastOnlyAfterOkSave t →
      BroadcastOnlyAfterOkSave (.save d (.error e) :: t)

/-! ## The legacy processor (src/src/main.rs, `sse_processing_task`) -/

/-- `DeployAtState` of the legacy crate. -/
inductive DeployAtState
  | Accepted (deploy : String)
  | Expired (deploy_hash : String)
  | Processed (payload : String)
deriving DecidableEq, Repr

/-- The legacy `SqliteDb` writer as used by `sse_processing_task`. -/
structure LegacySqliteDb (σ : Type) where
  save_block : σ → String × String → σ × Except String Unit
  save_or_update_deploy : σ → DeployAtState → σ × Except String Unit
  save_fault : σ → String × String × String → σ × Except String Unit
  save_step : σ → String × String → σ × Except String Unit

/-- `sse_processing_task` (src/src/main.rs lines 148-289) over a finite
stream of serde parse results of the raw frame bodies (serde_json is
external, so the input is the list of its outcomes).  A parse error logs and
continues.  A parsed event is broadcast FIRST (line 152), before any save is
attempted, and regardless of the save outcome; `FinalitySignature` is only
logged, never saved; `Shutdown` breaks after having been broadcast. -/
def sse_processing_task {σ : Type} (storage : LegacySqliteDb σ) :
    List (Except String SseData) → σ → List (ProcessorAction String)
  | [], _ => []
  | .error _ :: rest, s => sse_processing_task storage rest s
  | .ok d :: rest, s =>
    .broadcast d ::
      match d with
      | .ApiVersion _ => sse_processing_task storage rest s
      | .SidecarVersion _ => sse_processing_task storage rest s
      | .BlockAdded block_hash block =>
        match storage.save_block s (block_hash, block) with
        | (s', res) =>
          .save (.BlockAdded block_hash block) res :: sse_processing_task storage rest s'
      | .DeployAccepted deploy =>
        match storage.save_or_update_deploy s (.Accepted deploy) with
        | (s', res) => .save (.DeployAccepted deploy) res :: sse_processing_task storage rest s'
      | .DeployExpired deploy_hash =>
        match storage.save_or_update_deploy s (.Expired deploy_hash) with
        | (s', res) => .save (.DeployExpired deploy_hash) res :: sse_processing_task storage rest s'
      | .DeployProcessed a b c dd e f g =>
        match storage.save_or_update_deploy s (.Processed (a ++ b ++ c ++ dd ++ e ++ f ++ g)) with
        | (s', res) => .save (.DeployProcessed a b c dd e f g) res :: sse_processing_task storage rest s'
      | .Fault era_id timestamp public_key =>
        match storage.save_fault s (era_id, timestamp, public_key) with
        | (s', res) => .save (.Fault era_id timestamp public_key) res :: sse_processing_task storage rest s'
      | .FinalitySignature _ => sse_processing_task storage rest s
      | .Step era_id execution_effect =>
        match storage.save_step s (era_id, execution_effect) with
        | (s', res) => .save (.Step era_id execution_effect) res :: sse_processing_task storage rest s'
      | .Shutdown => []

/-- A legacy storage whose every save fails with a fixed error message. -/
def legacyFailingDb : LegacySqliteDb Unit where
  save_block := fun _ _ => ((), .error "disk failure")
  save_or_update_deploy := fun _ _ => ((), .error "disk failure")
  save_fault := fun _ _ => ((), .error "disk failure")
  save_step := fun _ _ => ((), .error "disk failure")

/-- A sidecar writer whose every save succeeds, over a unit state. -/
def alwaysOkWriter : SqliteWriter Unit where
  save_block_added := fun _ _ _ _ => ((), .ok ())
  save_deploy_accepted := fun _ _ _ _ => ((), .ok ())
  save_deploy_processed := fun _ _ _ _ => ((), .ok ())
  save_deploy_expired := fun _ _ _ _ => ((), .ok ())
  save_fault := fun _ _ _ _ => ((), .ok ())
  save_finality_signature := fun _ _ _ _ => ((), .ok ())
  save_step := fun _ _ _ _ => ((), .ok ())

/-! ## A small JSON model

serde_json is an external collaborator; the SSE server only ever parses a
frame body into a generic `Value` (`serde_json::from_str::<Value>`) or
serializes one.  The executable parser below models that call: a permissive
recursive-descent JSON reader (it accepts every well-formed document the
claims exercise and rejects non-JSON text). -/

inductive Json
  | null
  | bool (b : Bool)
  | num (lexeme : String)
  | str (s : String)
  | arr (elems : List Json)
  | obj (fields : List (String × Json))
deriving Repr

/-- The double-quote character. -/
def quoteChar : Char := Char.ofNat 34

/-- The backslash character. -/
def backslashChar : Char := Char.ofNat 92

/-- The opening-brace character. -/
def lbraceChar : Char := Char.ofNat 123

/-- The closing-brace character. -/
def rbraceChar : Char := Char.ofNat 125

/-- JSON insignificant whitespace. -/
def isJsonWs (c : Char) : Bool :=
  c = ' ' || c.toNat = 9 || c.toNat = 10 || c.toNat = 13

def skipJsonWs (cs : List Char) : List Char := cs.dropWhile isJsonWs

/-- Characters a number lexeme may contain after its first character. -/
def isJsonNumChar (c : Char) : Bool :=
  c.isDigit || c = '-' || c = '+' || c = '.' || c = 'e' || c = 'E'

/-- Matches an exact literal continuation such as `ull` after `n`. -/
def takeJsonLiteral (lit : List Char) (cs : List Char) : Option (List Char) :=
  if cs.take lit.length = lit then some (cs.drop lit.length) else none

/-- Reads a JSON string body up to the closing quote; an escape keeps the
backslash and the escaped character verbatim (the exact decoded text is
irrelevant to every claim). -/
def takeJsonString : Nat → List Char → Option (String × List Char)
  | 0, _ => none
  | _, [] => none
  | fuel + 1, c :: rest =>
    if c = quoteChar then some ("", rest)
    else if c = backslashChar then
      match rest with
      | [] => none
      | e :: rest2 =>
        (takeJsonString fuel rest2).map (fun p => (String.mk (c :: e :: p.1.data), p.2))
    else
      (takeJsonString fuel rest).map (fun p => (String.mk (c :: p.1.data), p.2))

mutual

/-- Parses one JSON value. -/
def parseJsonVal : Nat → List Char → Option (Json × List Char)
  | 0, _ => none
  | fuel + 1, cs =>
    match skipJsonWs cs with
    | [] => none
    | c :: rest =>
      if c = 'n' then
        (takeJsonLiteral ['u', 'l', 'l'] rest).map (fun r => (Json.null, r))
      else if c = 't' then
        (takeJsonLiteral ['r', 'u', 'e'] rest).map (fun r => (Json.bool true, r))
      else if c = 'f' then
        (takeJsonLiteral ['a', 'l', 's', 'e'] rest).map (fun r => (Json.bool false, r))
      else if c = quoteChar then
        (takeJsonString (fuel + 1) rest).map (fun p => (Json.str p.1, p.2))
      else if c = '-' || c.isDigit then
        let lexeme := c :: rest.takeWhile isJsonNumChar
        if (lexeme.filter Char.isDigit).isEmpty then none
        else some (Json.num (String.mk lexeme), rest.dropWhile isJsonNumChar)
      else if c = '[' then
        match skipJsonWs rest with
        | ']' :: rest2 => some (Json.arr [], rest2)
        | _ => (parseJsonElems fuel rest).map (fun p => (Json.arr p.1, p.2))
      else if c = lbraceChar then
        match skipJsonWs rest with
        | c2 :: rest2 =>
          if c2 = rbraceChar then some (Json.obj [], rest2)
          else (parseJsonFields fuel rest).map (fun p => (Json.obj p.1, p.2))
        | [] => none
      else none

/-- Parses `value (, value)* ]` inside an array. -/
def parseJsonElems : Nat → List Char → Option (List Json × List Char)
  | 0, _ => none
  | fuel + 1, cs =>
    match parseJsonVal fuel cs with
    | none => none
    | some (v, rest) =>
      match skipJsonWs rest with
      | ',' :: rest2 =>
        (parseJsonElems fuel rest2).map (fun p => (v :: p.1, p.2))
      | ']' :: rest2 => some ([v], rest2)
      | _ => none

/-- Parses `"key" : value (, "key" : value)* closing-brace` inside an
object. -/
def parseJsonFields : Nat → List Char → Option (List (String × Json) × List Char)
  | 0, _ => none
  | fuel + 1, cs =>
    match skipJsonWs cs with
    | c :: rest =>
      if c = quoteChar then
        match takeJsonString (fuel + 1) rest with
        | none => none
        | some (key, rest2) =>
          match skipJsonWs rest2 with
          | ':' :: rest3 =>
            match parseJsonVal fuel rest3 with
            | none => none
            | some (v, rest4) =>
              match skipJsonWs rest4 with
              | ',' :: rest5 =>
                (parseJsonFields fuel rest5).map (fun p => ((key, v) :: p.1, p.2))
              | c2 :: rest5 =>
                if c2 = rbraceChar then some ([(key, v)], rest5) else none
              | [] => none
          | _ => none
      else none
    | [] => none

end

/-- `serde_json::from_str::<Value>` on a whole document: one value with only
whitespace around it. -/
def Json.parse (s : String) : Option Json :=
  match parseJsonVal (s.length + 1) s.data with
  | some (v, rest) => if (skipJsonWs rest).isEmpty then some v else none
  | none => none

/-- Serialization of `SseData` into a generic JSON value, modelling the
derived serde `Serialize` implementation on the abstract payload tokens
(`serde_json::to_value(&event.data)` and `.json_data(&event.data)` cannot
fail on this data). -/
def SseData.toJson : SseData → Json
  | .ApiVersion v => Json.obj [("ApiVersion", Json.str v)]
  | .SidecarVersion v => Json.obj [("SidecarVersion", Json.str v)]
  | .BlockAdded h b =>
    Json.obj [("BlockAdded", Json.obj [("block_hash", Json.str h), ("block", Json.str b)])]
  | .DeployAccepted d => Json.obj [("DeployAccepted", Json.obj [("deploy", Json.str d)])]
  | .DeployProcessed a b c d e f g =>
    Json.obj [("DeployProcessed", Json.str (a ++ b ++ c ++ d ++ e ++ f ++ g))]
  | .DeployExpired h => Json.obj [("DeployExpired", Json.obj [("deploy_hash", Json.str h)])]
  | .Fault era ts pk =>
    Json.obj [("Fault", Json.obj [("era_id", Json.str era), ("timestamp", Json.str ts),
      ("public_key", Json.str pk)])]
  | .FinalitySignature p => Json.obj [("FinalitySignature", Json.str p)]
  | .Step era eff =>
    Json.obj [("Step", Json.obj [("era_id", Json.str era), ("execution_effect", Json.str eff)])]
  | .Shutdown => Json.str "Shutdown"

/-! ## The SSE server (sidecar/src/event_stream_server/sse_server.rs) -/

/-- The per-endpoint outbound filter tags (`casper_event_types::sse_data::EventFilter`). -/
inductive EventFilter
  | ApiVersion
  | SidecarVersion
  | BlockAdded
  | DeployAccepted
  | DeployProcessed
  | DeployExpired
  | Fault
  | FinalitySignature
  | Step
deriving DecidableEq, Repr

/-- The outbound endpoints (`event_stream_server::endpoint::Endpoint`). -/
inductive Endpoint
  | Events
  | Main
  | Deploys
  | Sigs
  | Sidecar
deriving DecidableEq, Repr

/-- `EVENTS_FILTER` (sse_server.rs lines 51-57). -/
def EVENTS_FILTER : List EventFilter :=
  [.ApiVersion, .BlockAdded, .DeployProcessed, .Fault, .FinalitySignature]

/-- `MAIN_FILTER` (sse_server.rs lines 60-67). -/
def MAIN_FILTER : List EventFilter :=
  [.ApiVersion, .BlockAdded, .DeployProcessed, .DeployExpired, .Fault, .Step]

/-- `DEPLOYS_FILTER` (sse_server.rs line 69). -/
def DEPLOYS_FILTER : List EventFilter := [.ApiVersion, .DeployAccepted]

/-- `SIGNATURES_FILTER` (sse_server.rs lines 71-72). -/
def SIGNATURES_FILTER : List EventFilter := [.ApiVersion, .FinalitySignature]

/-- `SIDECAR_FILTER` (sse_server.rs line 74). -/
def SIDECAR_FILTER : List EventFilter := [.SidecarVersion]

/-- The filter tag of an event kind, when it has one. -/
def SseData.filterTag : SseData → Option EventFilter
  | .ApiVersion _ => some .ApiVersion
  | .SidecarVersion _ => some .SidecarVersion
  | .BlockAdded _ _ => some .BlockAdded
  | .DeployAccepted _ => some .DeployAccepted
  | .DeployProcessed _ _ _ _ _ _ _ => some .DeployProcessed
  | .DeployExpired _ => some .DeployExpired
  | .Fault _ _ _ => some .Fault
  | .FinalitySignature _ => some .FinalitySignature
  | .Step _ _ => some .Step
  | .Shutdown => none

/-- Modelled from the spec: `SseData::should_include` lives in the external
`casper-event-types` crate (not under src/).  Per spec section 4.6 it returns
true iff the event's kind is in the set, and the repository's own tests
(`should_filter_events_with_valid_ids`) show that `Shutdown` passes every
filter set. -/
def SseData.should_include (d : SseData) (event_filter : List EventFilter) : Bool :=
  match d.filterTag with
  | none => true
  | some tag => event_filter.contains tag

/-- `ServerSentEvent` (sse_server.rs lines 87-96). -/
structure ServerSentEvent where
  id : Option Nat
  data : SseData
  json_data : Option String
  inbound_filter : Option SseFilter
deriving Repr

/-- `determine_id` (sse_server.rs lines 234-254), translated branch for
branch.  Note: in the `Some(id)` arm only `ApiVersion` is rejected; an event
whose data is `SidecarVersion` but which carries an id is accepted. -/
def determine_id (event : ServerSentEvent) : Option String :=
  match event.id with
  | some id =>
    match event.data with
    | .ApiVersion _ => none
    | _ => some (toString id)
  | none =>
    match event.data with
    | .ApiVersion _ => some ""
    | .SidecarVersion _ => some ""
    | _ => none

/-- An outbound warp SSE frame: the JSON body set by `.json_data(..)` and
the id set by `.id(..)` (absent when `.id` is never called). -/
structure WarpFrame where
  json : Option Json
  id : Option String
deriving Repr

/-- `event_to_warp_event` (sse_server.rs lines 132-145).  When `json_data`
is present the source calls `serde_json::from_str::<Value>(el).unwrap()`:
a body that is not valid JSON panics.  A serialization failure inside
`.json_data(..)` is handled by `unwrap_or_else` (default frame), but cannot
occur for a generic value, so that fallback is unreachable here. -/
def event_to_warp_event (event : ServerSentEvent) : Except Panicked WarpFrame :=
  match event.json_data with
  | some el =>
    match Json.parse el with
    | none => .error .panic
    | some v => .ok { json := some v, id := none }
  | none => .ok { json := some (SseData.toJson event.data), id := none }

/-- `tokio::sync::broadcast::error::RecvError`. -/
inductive RecvError
  | Closed
  | Lagged (amount : Nat)
deriving DecidableEq, Repr

/-- `handle_deploy_accepted` (sse_server.rs lines 208-232): same
`from_str(..).unwrap()` panic on a non-JSON `json_data`; without raw bytes
the payload is re-wrapped as `{"DeployAccepted":{"deploy_accepted":..}}`;
the id is always attached. -/
def handle_deploy_accepted (event : ServerSentEvent) (deploy : String) (id : String) :
    Except Panicked (Option (Except RecvError WarpFrame)) :=
  match event.json_data with
  | some el =>
    match Json.parse el with
    | none => .error .panic
    | some v => .ok (some (.ok { json := some v, id := some id }))
  | none =>
    .ok (some (.ok
      { json := some (Json.obj
          [("DeployAccepted", Json.obj [("deploy_accepted", Json.str deploy)])]),
        id := some id }))

/-- `build_event_for_outbound` (sse_server.rs lines 256-272): parse the raw
bytes when present (`unwrap` panics on non-JSON), otherwise serialize the
data; always attach the id. -/
def build_event_for_outbound (event : ServerSentEvent) (id : String) :
    Except Panicked (Option (Except RecvError WarpFrame)) :=
  match event.json_data with
  | some el =>
    match Json.parse el with
    | none => .error .panic
    | some v => .ok (some (.ok { json := some v, id := some id }))
  | none => .ok (some (.ok { json := some (SseData.toJson event.data), id := some id }))

/-- Modelled from the spec: `Endpoint::is_corresponding_to` lives in
`event_stream_server/endpoint.rs`, which is not under src/.  Per spec
section 4.5 an outbound endpoint corresponds to the inbound source filter of
the same name. -/
def Endpoint.is_corresponding_to : Endpoint → SseFilter → Bool
  | .Events, .Events => true
  | .Main, .Main => true
  | .Deploys, .Deploys => true
  | .Sigs, .Sigs => true
  | .Sidecar, .Sidecar => true
  | _, _ => false

/-- `should_send_shutdown` (sse_server.rs lines 195-206). -/
def should_send_shutdown (event : ServerSentEvent) (stream_filter : Endpoint) : Bool :=
  match event.inbound_filter, stream_filter with
  | none, .Sidecar => true
  | none, _ => false
  | some .Main, .Events => true
  | some .Events, .Main => true
  | some a, b => b.is_corresponding_to a

/-- `filter_map_server_sent_event` (sse_server.rs lines 157-193), translated
branch for branch. -/
def filter_map_server_sent_event (event : ServerSentEvent) (stream_filter : Endpoint)
    (event_filter : List EventFilter) :
    Except Panicked (Option (Except RecvError WarpFrame)) :=
  if !event.data.should_include event_filter then .ok none
  else
    match determine_id event with
    | none => .ok none
    | some id =>
      match event.data with
      | .ApiVersion _ | .SidecarVersion _ =>
        (event_to_warp_event event).map (fun f => some (.ok f))
      | .BlockAdded _ _ | .DeployProcessed _ _ _ _ _ _ _ | .DeployExpired _
      | .Fault _ _ _ | .Step _ _ | .FinalitySignature _ =>
        (event_to_warp_event event).map (fun f => some (.ok { f with id := some id }))
      | .DeployAccepted deploy => handle_deploy_accepted event deploy id
      | .Shutdown =>
        if should_send_shutdown event stream_filter then build_event_for_outbound event id
        else .ok none

/-- `BroadcastChannelMessage` (sse_server.rs lines 121-130). -/
inductive BroadcastChannelMessage
  | serverSentEvent (event : ServerSentEvent)
  | shutdown
deriving Repr

/-- `handle_sse_event` (sse_server.rs lines 583-594): skip a broadcast event
whose id was already delivered in the initial (replay) stream. -/
def handle_sse_event (event : ServerSentEvent) (initial_ids : List Nat) :
    Option (Except RecvError ServerSentEvent) :=
  match event.id with
  | some id => if initial_ids.contains id then none else some (.ok event)
  | none => some (.ok event)

/-- The ids recorded while the initial (replay) stream is exhausted
(the `map` stage of `build_combined_events_stream`, lines 544-550: every
`Some` id is inserted into the per-subscription set). -/
def initial_stream_ids (initial_events : List ServerSentEvent) : List Nat :=
  initial_events.filterMap (·.id)

/-- The ongoing (live) stream stage of `stream_to_client` (lines 509-523):
each broadcast item is either a received message or a `Lagged` report;
`handle_sse_event` dedups against the replay ids; a `Shutdown` message maps
to `Err(Closed)`, at which the `take_while` terminates the stream (the
`Closed` item itself is not emitted). -/
def ongoing_stream (initial_ids : List Nat) :
    List (Except Nat BroadcastChannelMessage) → List (Except RecvError ServerSentEvent)
  | [] => []
  | .ok (.serverSentEvent e) :: rest =>
    match handle_sse_event e initial_ids with
    | none => ongoing_stream initial_ids rest
    | some x => x :: ongoing_stream initial_ids rest
  | .ok .shutdown :: _ => []
  | .error amount :: rest => .error (.Lagged amount) :: ongoing_stream initial_ids rest

/-- The final `filter_map` stage of `build_combined_events_stream`
(lines 552-573): render every surviving event through
`filter_map_server_sent_event`; errors pass through.  A panic inside the
renderer aborts the subscriber stream. -/
def render_stream (stream_filter : Endpoint) (event_filter : List EventFilter) :
    List (Except RecvError ServerSentEvent) →
    Except Panicked (List (Except RecvError WarpFrame))
  | [] => .ok []
  | .ok e :: rest =>
    match filter_map_server_sent_event e stream_filter event_filter with
    | .error p => .error p
    | .ok none => render_stream stream_filter event_filter rest
    | .ok (some x) =>
      (render_stream stream_filter event_filter rest).map (fun l => x :: l)
  | .error err :: rest =>
    (render_stream stream_filter event_filter rest).map (fun l => .error err :: l)

/-- `build_combined_events_stream` (sse_server.rs lines 535-573): the replay
events (each recording its id) chained with the dedupped live stream, then
rendered.  The live stage only begins after the replay receiver is
exhausted, so it sees the fully built id set. -/
def build_combined_events_stream (initial_events : List ServerSentEvent)
    (ongoing : List (Except Nat BroadcastChannelMessage)) (stream_filter : Endpoint)
    (event_filter : List EventFilter) :
    Except Panicked (List (Except RecvError WarpFrame)) :=
  render_stream stream_filter event_filter
    (initial_events.map .ok ++ ongoing_stream (initial_stream_ids initial_events) ongoing)

/-- The event ids of the segment elements that the render stage emits as
frames carrying an id field. -/
def emitted_event_ids (stream_filter : Endpoint) (event_filter : List EventFilter)
    (segment : List (Except RecvError ServerSentEvent)) : List Nat :=
  segment.filterMap (fun x =>
    match x with
    | .ok e =>
      match filter_map_server_sent_event e stream_filter event_filter with
      | .ok (some (.ok fr)) => if fr.id.isSome then e.id else none
      | _ => none
    | .error _ => none)

/-! ## The HTTP surface of the SSE server -/

/-- `str::parse::<u32>` on a query value: an optional leading plus sign,
then one or more ASCII digits, with the value bounded by `u32::MAX`
(overflow is a parse error). -/
def parse_u32 (s : String) : Option Nat :=
  let t := match s.data with
    | '+' :: rest => rest
    | l => l
  if t.isEmpty then none
  else if t.all Char.isDigit then
    let n := t.foldl (fun acc c => acc * 10 + (c.toNat - 48)) 0
    if n < 4294967296 then some n else none
  else none

/-- The warp query map, keyed uniquely. -/
def QueryMap : Type := List (String × String)

def QueryMap.get? (q : QueryMap) (k : String) : Option String :=
  match List.find? (fun p => p.1 = k) q with
  | some p => some p.2
  | none => none

/-- The responses the SSE handler can produce. -/
inductive SseResponse
  | r404
  | r422
  | r503
  | stream (event_filter : List EventFilter) (stream_filter : Endpoint)
      (start_from : Option Nat)
deriving DecidableEq, Repr

/-- `parse_query` (sse_server.rs lines 300-316): empty map is fine; more
than one entry is a 422; a single entry must be `start_from` with a value
parsing as a `u32`, anything else is a 422. -/
def parse_query (query : QueryMap) : Except SseResponse (Option Nat) :=
  if List.isEmpty query then .ok none
  else if decide (1 < List.length query) then .error .r422
  else
    match (QueryMap.get? query "start_from").bind parse_u32 with
    | some id => .ok (some id)
    | none => .error .r422

/-- `path_to_filter` (sse_server.rs lines 274-283). -/
def path_to_filter (path_param : String) : Option Endpoint :=
  if path_param = "events" then some .Events
  else if path_param = "main" then some .Main
  else if path_param = "deploys" then some .Deploys
  else if path_param = "sigs" then some .Sigs
  else if path_param = "sidecar" then some .Sidecar
  else none

/-- `get_filter` (sse_server.rs lines 285-294). -/
def get_filter (path_param : String) : Option (List EventFilter) :=
  if path_param = "events" then some EVENTS_FILTER
  else if path_param = "main" then some MAIN_FILTER
  else if path_param = "deploys" then some DEPLOYS_FILTER
  else if path_param = "sigs" then some SIGNATURES_FILTER
  else if path_param = "sidecar" then some SIDECAR_FILTER
  else none

/-- `parse_url_props` (sse_server.rs lines 402-420): a missing final path
element means the root `events` endpoint; an unrecognized element is a 404,
checked before the query is parsed. -/
def parse_url_props (maybe_path_param : Option String) (query : QueryMap) :
    Except SseResponse (List EventFilter × Endpoint × Option Nat) :=
  let path_param := maybe_path_param.getD "events"
  match get_filter path_param with
  | none => .error .r404
  | some event_filter =>
    match path_to_filter path_param with
    | none => .error .r404
    | some stream_filter =>
      match parse_query query with
      | .error r => .error r
      | .ok maybe_id => .ok (event_filter, stream_filter, maybe_id)

/-- `validate` (sse_server.rs lines 422-435): refuse with a 503 when the
broadcast channel's live receiver count has already reached
`max_concurrent_subscribers`. -/
def validate (receiver_count : Nat) (max_concurrent_subscribers : Nat) :
    Option SseResponse :=
  if max_concurrent_subscribers ≤ receiver_count then some .r503 else none

/-- `serve_sse_response_handler` (sse_server.rs lines 356-400): the
admission check runs FIRST; only then are path and query parsed; an accepted
request subscribes and streams. -/
def serve_sse_response_handler (receiver_count : Nat)
    (max_concurrent_subscribers : Nat) (maybe_path_param : Option String)
    (query : QueryMap) : SseResponse :=
  match validate receiver_count max_concurrent_subscribers with
  | some r => r
  | none =>
    match parse_url_props maybe_path_param query with
    | .error r => r
    | .ok (event_filter, stream_filter, start_from) =>
      .stream event_filter stream_filter start_from

/-- A run of subscription attempts: each admitted subscriber attaches a new
receiver to the broadcast channel (`cloned_broadcaster.subscribe()`), so the
live receiver count the next `validate` reads has grown by one. -/
def admit_subscribers (max_concurrent_subscribers : Nat) :
    Nat → Nat → List Bool
  | 0, _ => []
  | n + 1, receiver_count =>
    match validate receiver_count max_concurrent_subscribers with
    | some _ => false :: admit_subscribers max_concurrent_subscribers n receiver_count
    | none => true :: admit_subscribers max_concurrent_subscribers n (receiver_count + 1)

/-! ## Concrete instances used by the witnesses and counterexamples -/

/-- A well-formed 64-hex hash. -/
def hashA : String := String.mk (List.replicate 64 'a')

/-- A database with an accepted and a processed row for `hashA` and no
expired marker. -/
def c1Database : SqliteDatabase where
  conn :=
    { fetch_block_added := fun _ => .ok none
      fetch_deploy_accepted := fun h => if h = hashA then .ok (some "acceptedRaw") else .ok none
      fetch_deploy_processed := fun h => if h = hashA then .ok (some "processedRaw") else .ok none
      fetch_deploy_expired := fun _ => .ok none
      fetch_faults_by_public_key := fun _ => .ok []
      fetch_finality_signatures := fun _ => .ok [] }
  serde :=
    { block_added? := fun _ => none
      deploy_accepted? := fun r => if r = "acceptedRaw" then some ⟨"A"⟩ else none
      deploy_processed? := fun r => if r = "processedRaw" then some ⟨"P"⟩ else none
      fault? := fun _ => none
      fin_sig? := fun _ => none }

/-- A database with an accepted row for `hashA` whose deploy-processed query
fails with a transport error. -/
def c2Database : SqliteDatabase where
  conn :=
    { fetch_block_added := fun _ => .ok none
      fetch_deploy_accepted := fun h => if h = hashA then .ok (some "acceptedRaw") else .ok none
      fetch_deploy_processed := fun _ => .error "io failure"
      fetch_deploy_expired := fun _ => .ok none
      fetch_faults_by_public_key := fun _ => .ok []
      fetch_finality_signatures := fun _ => .ok [] }
  serde :=
    { block_added? := fun _ => none
      deploy_accepted? := fun r => if r = "acceptedRaw" then some ⟨"A"⟩ else none
      deploy_processed? := fun _ => none
      fault? := fun _ => none
      fin_sig? := fun _ => none }

/-- A database with an accepted row for `hashA`, no processed row, and a
deploy-expired query that fails with a transport error. -/
def c2ExpiredErrDatabase : SqliteDatabase where
  conn :=
    { fetch_block_added := fun _ => .ok none
      fetch_deploy_accepted := fun h => if h = hashA then .ok (some "acceptedRaw") else .ok none
      fetch_deploy_processed := fun _ => .ok none
      fetch_deploy_expired := fun _ => .error "io failure"
      fetch_faults_by_public_key := fun _ => .ok []
      fetch_finality_signatures := fun _ => .ok [] }
  serde :=
    { block_added? := fun _ => none
      deploy_accepted? := fun r => if r = "acceptedRaw" then some ⟨"A"⟩ else none
      deploy_processed? := fun _ => none
      fault? := fun _ => none
      fin_sig? := fun _ => none }


/-- A concrete broadcast-stream event with id 1. -/
def evBlock1 : ServerSentEvent := ⟨some 1, .BlockAdded "h" "b", none, none⟩

/-- A concrete broadcast-stream event with id 2. -/
def evBlock2 : ServerSentEvent := ⟨some 2, .BlockAdded "h2" "b2", none, none⟩

/-- A concrete id-less ApiVersion event. -/
def evApi : ServerSentEvent := ⟨none, .ApiVersion "1.0.0", none, none⟩


/-- Whether an event kind is `ApiVersion`. -/
def isApiVersionData : SseData → Bool
  | .ApiVersion _ => true
  | _ => false

/-- Whether an event kind is `ApiVersion` or `SidecarVersion` (the two
id-less kinds). -/
def isVersionData : SseData → Bool
  | .ApiVersion _ => true
  | .SidecarVersion _ => true
  | _ => false

/-! ## Theorems -/

/-- C1: for every hash input for which the deploy-accepted lookup succeeds
or fails with NotFound (and whose processed / expired rows are readable),
`get_deploy_aggregate_by_hash` returns `NotFound` iff no `deploy_accepted`
row exists; with an accepted record it returns `accepted=Some` and:
`processed=Some, expired=false` when a processed row exists;
`processed=None, expired=true` when only an expired row exists;
`processed=None, expired=false` when neither exists. -/
theorem deploy_aggregate_row_semantics (self : SqliteDatabase) (hash : String)
    (hacc : get_deploy_accepted_by_hash self hash = .error .NotFound ∨
      ∃ a, get_deploy_accepted_by_hash self hash = .ok a)
    (hproc : self.conn.fetch_deploy_processed hash = .ok none ∨
      ∃ raw p, self.conn.fetch_deploy_processed hash = .ok (some raw) ∧
        self.serde.deploy_processed? raw = some p)
    (hexp : ∃ r, self.conn.fetch_deploy_expired hash = .ok r) :
    (get_deploy_aggregate_by_hash self hash = .error .NotFound ↔
      self.conn.fetch_deploy_accepted hash = .ok none)
    ∧ ∀ a, get_deploy_accepted_by_hash self hash = .ok a →
      (∀ raw p, self.conn.fetch_deploy_processed hash = .ok (some raw) →
        self.serde.deploy_processed? raw = some p →
        get_deploy_aggregate_by_hash self hash = .ok ⟨hash, some a, some p, false⟩)
      ∧ (self.conn.fetch_deploy_processed hash = .ok none →
        (∀ r, self.conn.fetch_deploy_expired hash = .ok (some r) →
          get_deploy_aggregate_by_hash self hash = .ok ⟨hash, some a, none, true⟩)
        ∧ (self.conn.fetch_deploy_expired hash = .ok none →
          get_deploy_aggregate_by_hash self hash = .ok ⟨hash, some a, none, false⟩)) := by
  have hfmt : matchesHash64 hash = true := by
    by_contra hne
    have hf : matchesHash64 hash = false := by
      cases hb : matchesHash64 hash
      · rfl
      · exact absurd hb hne
    rcases hacc with h | ⟨a, h⟩ <;>
      simp [get_deploy_accepted_by_hash, check_hash_is_correct_format, hf] at h
  have hchk : check_hash_is_correct_format hash = .ok () := by
    simp [check_hash_is_correct_format, hfmt]
  rcases hacc with hA | ⟨a, hA⟩
  · -- no accepted record: the aggregate is NotFound
    have hAF : self.conn.fetch_deploy_accepted hash = .ok none := by
      cases hF : self.conn.fetch_deploy_accepted hash with
      | error e => simp [get_deploy_accepted_by_hash, hchk, hF] at hA
      | ok o =>
        cases o with
        | none => rfl
        | some raw =>
          cases hS : self.serde.deploy_accepted? raw <;>
            simp [get_deploy_accepted_by_hash, hchk, hF, hS] at hA
    have hAgg : get_deploy_aggregate_by_hash self hash = .error .NotFound := by
      simp [get_deploy_aggregate_by_hash, hchk, hA]
    refine ⟨⟨fun _ => hAF, fun _ => hAgg⟩, ?_⟩
    intro a ha
    rw [hA] at ha
    simp at ha
  · -- an accepted record exists
    obtain ⟨rawA, hAF, _⟩ :
        ∃ raw, self.conn.fetch_deploy_accepted hash = .ok (some raw) ∧
          self.serde.deploy_accepted? raw = some a := by
      cases hF : self.conn.fetch_deploy_accepted hash with
      | error e => simp [get_deploy_accepted_by_hash, hchk, hF] at hA
      | ok o =>
        cases o with
        | none => simp [get_deploy_accepted_by_hash, hchk, hF] at hA
        | some raw =>
          cases hS : self.serde.deploy_accepted? raw with
          | none => simp [get_deploy_accepted_by_hash, hchk, hF, hS] at hA
          | some v =>
            have hva : v = a := by
              simp [get_deploy_accepted_by_hash, hchk, hF, hS] at hA
              exact hA
            exact ⟨raw, rfl, by rw [hS, hva]⟩
    have hAggP : ∀ raw p, self.conn.fetch_deploy_processed hash = .ok (some raw) →
        self.serde.deploy_processed? raw = some p →
        get_deploy_aggregate_by_hash self hash = .ok ⟨hash, some a, some p, false⟩ := by
      intro raw p hPF hPS
      have hPG : get_deploy_processed_by_hash self hash = .ok p := by
        simp [get_deploy_processed_by_hash, hchk, hPF, hPS]
      simp [get_deploy_aggregate_by_hash, hchk, hA, hPG]
    have hPGnf : self.conn.fetch_deploy_processed hash = .ok none →
        get_deploy_processed_by_hash self hash = .error .NotFound := by
      intro hPF
      simp [get_deploy_processed_by_hash, hchk, hPF]
    have hAggE : self.conn.fetch_deploy_processed hash = .ok none →
        ∀ r, self.conn.fetch_deploy_expired hash = .ok (some r) →
        get_deploy_aggregate_by_hash self hash = .ok ⟨hash, some a, none, true⟩ := by
      intro hPF r hEF
      have hEG : get_deploy_expired_by_hash self hash = .ok true := by
        simp [get_deploy_expired_by_hash, hchk, hEF]
      simp [get_deploy_aggregate_by_hash, hchk, hA, hPGnf hPF, hEG,
        matches_not_found_wildcard]
    have hAggN : self.conn.fetch_deploy_processed hash = .ok none →
        self.conn.fetch_deploy_expired hash = .ok none →
        get_deploy_aggregate_by_hash self hash = .ok ⟨hash, some a, none, false⟩ := by
      intro hPF hEF
      have hEG : get_deploy_expired_by_hash self hash = .error .NotFound := by
        simp [get_deploy_expired_by_hash, hchk, hEF]
      simp [get_deploy_aggregate_by_hash, hchk, hA, hPGnf hPF, hEG,
        matches_not_found_wildcard]
    have hAggOk : ∃ v, get_deploy_aggregate_by_hash self hash = .ok v := by
      rcases hproc with hPF | ⟨raw, p, hPF, hPS⟩
      · obtain ⟨r, hEF⟩ := hexp
        cases r with
        | none => exact ⟨_, hAggN hPF hEF⟩
        | some r0 => exact ⟨_, hAggE hPF r0 hEF⟩
      · exact ⟨_, hAggP raw p hPF hPS⟩
    constructor
    · constructor
      · intro hAgg
        obtain ⟨v, hv⟩ := hAggOk
        rw [hv] at hAgg
        simp at hAgg
      · intro hnone
        rw [hAF] at hnone
        simp at hnone
    · intro a' ha'
      have haa : a' = a := by
        rw [hA] at ha'
        simpa using ha'.symm
      subst haa
      exact ⟨hAggP, fun hPF => ⟨fun r => hAggE hPF r, hAggN hPF⟩⟩

/-- C1 witness: on a concrete database holding an accepted and a processed
row for `hashA`, the aggregate is `accepted=Some, processed=Some,
expired=false`. -/
theorem deploy_aggregate_row_semantics_witness :
    get_deploy_aggregate_by_hash c1Database hashA =
      .ok ⟨hashA, some ⟨"A"⟩, some ⟨"P"⟩, false⟩ := by
  have h := deploy_aggregate_row_semantics c1Database hashA (Or.inr ⟨⟨"A"⟩, rfl⟩)
    (Or.inr ⟨"processedRaw", ⟨"P"⟩, rfl, rfl⟩) ⟨none, rfl⟩
  exact (h.2 ⟨"A"⟩ rfl).1 "processedRaw" ⟨"P"⟩ rfl rfl

/-- C2: `get_deploy_aggregate_by_hash` is claimed to propagate any
non-NotFound error of the processed / expired lookups; on the code, the
guard `!matches!(DatabaseRequestError::NotFound, _err)` is always false, so
a transport failure (`Unhandled`) of either lookup is silently swallowed
and a success aggregate is returned instead. -/
theorem deploy_aggregate_swallows_lookup_errors :
    get_deploy_processed_by_hash c2Database hashA = .error (.Unhandled "io failure")
    ∧ get_deploy_aggregate_by_hash c2Database hashA =
        .ok ⟨hashA, some ⟨"A"⟩, none, false⟩
    ∧ get_deploy_expired_by_hash c2ExpiredErrDatabase hashA =
        .error (.Unhandled "io failure")
    ∧ get_deploy_aggregate_by_hash c2ExpiredErrDatabase hashA =
        .ok ⟨hashA, some ⟨"A"⟩, none, false⟩ :=
  ⟨rfl, rfl, rfl, rfl⟩

/-- C3 (amended): in the sidecar crate's `sse_processor`, every broadcast is
immediately preceded by the `Ok`-returning save of the same event, and an
event whose save fails (with `DuplicateEntry` or any other error) is not
broadcast. -/
theorem sidecar_processor_broadcast_only_after_ok_save {σ : Type} (db : SqliteWriter σ)
    (events : List SseEvent) (s : σ) (trace : List (ProcessorAction DatabaseWriteError))
    (h : sse_processor db events s = .ok trace) :
    BroadcastOnlyAfterOkSave trace := by
  induction events generalizing s trace with
  | nil =>
    simp [sse_processor] at h
    subst h
    exact .nil
  | cons e rest ih =>
    cases hstep : e.data.processorStep with
    | logOnly =>
      simp only [sse_processor, hstep] at h
      exact ih s trace h
    | stop =>
      simp only [sse_processor, hstep] at h
      simp at h
      subst h
      exact .nil
    | persist =>
      cases hid : e.id with
      | none =>
        simp only [sse_processor, hstep, hid] at h
        exact Except.noConfusion h
      | some id =>
        rcases hsv : saveTyped db e.data s id e.source with ⟨s2, res⟩
        cases res with
        | ok u =>
          cases u
          cases hrec : sse_processor db rest s2 with
          | error p =>
            simp only [sse_processor, hstep, hid, hsv, hrec, Except.map] at h
            exact Except.noConfusion h
          | ok t =>
            simp only [sse_processor, hstep, hid, hsv, hrec, Except.map,
              Except.ok.injEq] at h
            rw [← h]
            exact .saveOk (ih s2 t hrec)
        | error err =>
          cases hrec : sse_processor db rest s2 with
          | error p =>
            simp only [sse_processor, hstep, hid, hsv, hrec, Except.map] at h
            exact Except.noConfusion h
          | ok t =>
            simp only [sse_processor, hstep, hid, hsv, hrec, Except.map,
              Except.ok.injEq] at h
            rw [← h]
            exact .saveErr (ih s2 t hrec)

/-- C3 witness: a concrete run on one `BlockAdded` event with a succeeding
store produces the save-then-broadcast trace, well-formed per the theorem. -/
theorem sidecar_processor_broadcast_only_after_ok_save_witness :
    @BroadcastOnlyAfterOkSave DatabaseWriteError
      [ProcessorAction.save (SseData.BlockAdded "h" "b") (.ok ()),
       ProcessorAction.broadcast (SseData.BlockAdded "h" "b")] :=
  sidecar_processor_broadcast_only_after_ok_save alwaysOkWriter
    [⟨some 1, .BlockAdded "h" "b", .Main⟩] () _ rfl

/-- C3 counterexample: the legacy processor (`sse_processing_task`,
src/src/main.rs) broadcasts a parsed event BEFORE attempting the save and
regardless of the save outcome: with a failing store, a `BlockAdded` event
is still broadcast, and the resulting trace violates the
broadcast-only-after-ok-save discipline the claim states. -/
theorem legacy_processor_broadcasts_before_save :
    sse_processing_task legacyFailingDb [.ok (.BlockAdded "h" "b")] () =
      [.broadcast (.BlockAdded "h" "b"),
       .save (.BlockAdded "h" "b") (.error "disk failure")]
    ∧ ¬ BroadcastOnlyAfterOkSave
        [ProcessorAction.broadcast (SseData.BlockAdded "h" "b"),
         ProcessorAction.save (SseData.BlockAdded "h" "b") (.error "disk failure")] :=
  ⟨rfl, fun h => nomatch h⟩

/-- C10: the core is claimed never to panic on any envelope; on the code,
`sse_processor` calls `sse_event.id.unwrap()` — a typed event with no id
panics — and `event_to_warp_event` calls
`serde_json::from_str::<Value>(..).unwrap()` — an event whose `json_data`
is not valid JSON panics during serialization. -/
theorem processor_and_serializer_panic_on_bad_envelopes :
    sse_processor alwaysOkWriter [⟨none, .BlockAdded "h" "b", .Main⟩] () = .error .panic
    ∧ event_to_warp_event ⟨some 1, .BlockAdded "h" "b", some "not json", some .Main⟩ =
        .error .panic :=
  ⟨rfl, rfl⟩

/-- Every id-carrying frame emitted from a segment originates in an `Ok`
element of the segment whose event carries that id. -/
theorem emitted_ids_mem (sf : Endpoint) (ef : List EventFilter)
    (seg : List (Except RecvError ServerSentEvent)) (i : Nat)
    (h : i ∈ emitted_event_ids sf ef seg) :
    ∃ e, (Except.ok e : Except RecvError ServerSentEvent) ∈ seg ∧ e.id = some i := by
  rw [emitted_event_ids] at h
  obtain ⟨x, hx, hfx⟩ := List.mem_filterMap.mp h
  cases x with
  | error err => simp at hfx
  | ok e =>
    refine ⟨e, hx, ?_⟩
    cases hfm : filter_map_server_sent_event e sf ef with
    | error p => simp [hfm] at hfx
    | ok o =>
      cases o with
      | none => simp [hfm] at hfx
      | some r =>
        cases r with
        | error err2 => simp [hfm] at hfx
        | ok fr =>
          by_cases hid : fr.id.isSome
          · simpa [hfm, hid] using hfx
          · simp [hfm, hid] at hfx

/-- An event that survives the live stage's dedup carries no id that is in
the replay id set. -/
theorem ongoing_stream_ok_id_not_recorded (S : List Nat)
    (msgs : List (Except Nat BroadcastChannelMessage)) (e : ServerSentEvent)
    (hmem : (Except.ok e : Except RecvError ServerSentEvent) ∈ ongoing_stream S msgs)
    (i : Nat) (hid : e.id = some i) : i ∉ S := by
  induction msgs with
  | nil => simp [ongoing_stream] at hmem
  | cons m rest ih =>
    cases m with
    | error n =>
      simp only [ongoing_stream] at hmem
      rcases List.mem_cons.mp hmem with heq | htail
      · exact Except.noConfusion heq
      · exact ih htail
    | ok bm =>
      cases bm with
      | shutdown => simp [ongoing_stream] at hmem
      | serverSentEvent e2 =>
        cases hh : handle_sse_event e2 S with
        | none =>
          simp only [ongoing_stream, hh] at hmem
          exact ih hmem
        | some x =>
          simp only [ongoing_stream, hh] at hmem
          rcases List.mem_cons.mp hmem with heq | htail
          · cases hid2 : e2.id with
            | none =>
              simp only [handle_sse_event, hid2] at hh
              have hx : x = Except.ok e2 := (Option.some.inj hh).symm
              subst hx
              have hee : e = e2 := Except.ok.inj heq
              subst hee
              rw [hid2] at hid
              exact Option.noConfusion hid
            | some j =>
              simp only [handle_sse_event, hid2] at hh
              by_cases hc : S.contains j = true
              · rw [if_pos hc] at hh
                exact Option.noConfusion hh
              · rw [if_neg hc] at hh
                have hx : x = Except.ok e2 := (Option.some.inj hh).symm
                subst hx
                have hee : e = e2 := Except.ok.inj heq
                subst hee
                rw [hid2] at hid
                have hij : j = i := Option.some.inj hid
                subst hij
                simpa using hc
          · exact ih htail

/-- C4: across the seam of a subscriber stream, (1) every id delivered in
the initial (replay) segment is recorded in the per-subscription id set,
(2) a broadcast event whose id is in the set is skipped, (3) an id-less
event is never suppressed by the dedup, and (4) no event id emitted in the
replay segment is ever emitted again in the live segment. -/
theorem replay_live_seam_dedup (initial_events : List ServerSentEvent)
    (ongoing : List (Except Nat BroadcastChannelMessage)) (stream_filter : Endpoint)
    (event_filter : List EventFilter) :
    (∀ e ∈ initial_events, ∀ i, e.id = some i → i ∈ initial_stream_ids initial_events)
    ∧ (∀ e i, e.id = some i → i ∈ initial_stream_ids initial_events →
        handle_sse_event e (initial_stream_ids initial_events) = none)
    ∧ (∀ e, e.id = none →
        handle_sse_event e (initial_stream_ids initial_events) = some (.ok e))
    ∧ (∀ i, i ∈ emitted_event_ids stream_filter event_filter
          (initial_events.map .ok) →
        i ∉ emitted_event_ids stream_filter event_filter
          (ongoing_stream (initial_stream_ids initial_events) ongoing)) := by
  refine ⟨?_, ?_, ?_, ?_⟩
  · intro e he i hid
    exact List.mem_filterMap.mpr ⟨e, he, hid⟩
  · intro e i hid hmem
    simp [handle_sse_event, hid, hmem]
  · intro e hid
    simp [handle_sse_event, hid]
  · intro i hrep hlive
    obtain ⟨er, hmr, hidr⟩ := emitted_ids_mem _ _ _ _ hrep
    obtain ⟨e0, he0, heq⟩ := List.mem_map.mp hmr
    have her : e0 = er := Except.ok.inj heq
    have hiS : i ∈ initial_stream_ids initial_events :=
      List.mem_filterMap.mpr ⟨e0, he0, by rw [her]; exact hidr⟩
    obtain ⟨el, hml, hidl⟩ := emitted_ids_mem _ _ _ _ hlive
    exact ongoing_stream_ok_id_not_recorded _ _ _ hml i hidl hiS

/-- C4 witness: on a concrete replay of id 1 and a live stream carrying
ids 1 and 2, id 1 is recorded, the live duplicate is skipped, the id-less
ApiVersion passes, and id 1 is not emitted in the live segment. -/
theorem replay_live_seam_dedup_witness :
    (1 : Nat) ∈ initial_stream_ids [evBlock1]
    ∧ handle_sse_event evBlock1 (initial_stream_ids [evBlock1]) = none
    ∧ handle_sse_event evApi (initial_stream_ids [evBlock1]) = some (.ok evApi)
    ∧ (1 : Nat) ∉ emitted_event_ids .Main MAIN_FILTER
        (ongoing_stream (initial_stream_ids [evBlock1])
          [.ok (.serverSentEvent evBlock1), .ok (.serverSentEvent evBlock2)]) := by
  have h := replay_live_seam_dedup [evBlock1]
    [.ok (.serverSentEvent evBlock1), .ok (.serverSentEvent evBlock2)] .Main MAIN_FILTER
  exact ⟨h.1 evBlock1 (List.mem_singleton.mpr rfl) 1 rfl,
    h.2.1 evBlock1 1 rfl (by decide),
    h.2.2.1 evApi rfl,
    h.2.2.2 1 (by decide)⟩

/-- C5 (amended): the legacy sqlite reader rejects, with `InvalidParam` and
independently of the database contents, every hash argument that is not
exactly 64 hexadecimal characters (so the empty string, wrong lengths and
non-hex characters) on all six hash-taking operations, and every public-key
argument that is not exactly 66 or 68 hexadecimal characters; the sidecar
crate's generated reader performs no such validation. -/
theorem sqlite_reader_rejects_malformed_hex :
    (∀ (db : SqliteDatabase) (s : String), matchesHash64 s = false →
      isInvalidParamResult (get_block_by_hash db s) = true
      ∧ isInvalidParamResult (get_deploy_accepted_by_hash db s) = true
      ∧ isInvalidParamResult (get_deploy_processed_by_hash db s) = true
      ∧ isInvalidParamResult (get_deploy_expired_by_hash db s) = true
      ∧ isInvalidParamResult (get_deploy_aggregate_by_hash db s) = true
      ∧ isInvalidParamResult (get_finality_signatures_by_block db s) = true)
    ∧ (∀ (db : SqliteDatabase) (s : String), matchesPublicKeyHex s = false →
      isInvalidParamResult (get_faults_by_public_key db s) = true)
    ∧ (∀ s : String, s.length ≠ 64 → matchesHash64 s = false)
    ∧ (∀ s : String, ∀ c ∈ s.data, isHexChar c = false → matchesHash64 s = false)
    ∧ (∀ s : String, s.length ≠ 66 → s.length ≠ 68 → matchesPublicKeyHex s = false)
    ∧ (∀ s : String, ∀ c ∈ s.data, isHexChar c = false →
        matchesPublicKeyHex s = false) := by
  refine ⟨?_, ?_, ?_, ?_, ?_, ?_⟩
  · intro db s hf
    refine ⟨?_, ?_, ?_, ?_, ?_, ?_⟩ <;>
      simp [get_block_by_hash, get_deploy_accepted_by_hash, get_deploy_processed_by_hash,
        get_deploy_expired_by_hash, get_deploy_aggregate_by_hash,
        get_finality_signatures_by_block, check_hash_is_correct_format,
        isInvalidParamResult, hf]
  · intro db s hf
    simp [get_faults_by_public_key, check_public_key_is_correct_format,
      isInvalidParamResult, hf]
  · intro s h
    simp [matchesHash64, h]
  · intro s c hc hcf
    simp only [matchesHash64, Bool.and_eq_false_iff]
    right
    simp only [List.all_eq_false]
    exact ⟨c, hc, by simp [hcf]⟩
  · intro s h66 h68
    simp [matchesPublicKeyHex, h66, h68]
  · intro s c hc hcf
    simp only [matchesPublicKeyHex, Bool.and_eq_false_iff]
    right
    simp only [List.all_eq_false]
    exact ⟨c, hc, by simp [hcf]⟩

/-- C5 witness: concrete malformed inputs are rejected by the legacy
reader. -/
theorem sqlite_reader_rejects_malformed_hex_witness :
    isInvalidParamResult (get_block_by_hash c1Database "") = true
    ∧ isInvalidParamResult (get_deploy_aggregate_by_hash c1Database "zz") = true
    ∧ isInvalidParamResult (get_faults_by_public_key c1Database "") = true := by
  have h := sqlite_reader_rejects_malformed_hex
  exact ⟨(h.1 c1Database "" (by decide)).1,
    (h.1 c1Database "zz" (by decide)).2.2.2.2.1,
    h.2.1 c1Database "" (by decide)⟩

/-- C5 counterexample: the sidecar crate's generated reader
(`reader_generator.rs`) has no hex check: `get_block_by_hash` with the
empty (malformed) hash runs the query and reports `NotFound` — not the
`InvalidParam` rejection the claim states (the sidecar `DatabaseReadError`
does not even have such a variant). -/
theorem sidecar_reader_accepts_malformed_hash :
    Sidecar.get_block_by_hash sidecarEmptyDatabase "" = .error .NotFound
    ∧ isNotFoundReadResult (Sidecar.get_block_by_hash sidecarEmptyDatabase "") = true :=
  ⟨rfl, rfl⟩

/-- Every error `parse_query` produces is a 422. -/
theorem parse_query_errors_are_422 (q : QueryMap) (r : SseResponse)
    (h : parse_query q = .error r) : r = .r422 := by
  rw [parse_query] at h
  split at h
  · exact Except.noConfusion h
  · split at h
    · exact (Except.error.inj h).symm
    · split at h
      · exact Except.noConfusion h
      · exact (Except.error.inj h).symm

/-- `parse_url_props` never produces a 503. -/
theorem parse_url_props_not_503 (p : Option String) (q : QueryMap) :
    parse_url_props p q ≠ .error .r503 := by
  rw [parse_url_props]
  cases hg : get_filter (p.getD "events") with
  | none => simp
  | some ef =>
    cases hpf : path_to_filter (p.getD "events") with
    | none => simp
    | some sf =>
      cases hq : parse_query q with
      | error r =>
        have hr := parse_query_errors_are_422 q r hq
        subst hr
        simp
      | ok v => simp [hq]

/-- The step equation of `admit_subscribers`. -/
theorem admit_subscribers_succ (m n c : Nat) :
    admit_subscribers m (n + 1) c =
      (match validate c m with
        | some _ => false :: admit_subscribers m n c
        | none => true :: admit_subscribers m n (c + 1)) := rfl

/-- One admitted step of `admit_subscribers`. -/
theorem admit_subscribers_succ_none {m c : Nat} (n : Nat) (h : validate c m = none) :
    admit_subscribers m (n + 1) c = true :: admit_subscribers m n (c + 1) := by
  rw [admit_subscribers_succ, h]

/-- After a full run of `N` admitted subscribers, the next attempt fails. -/
theorem admit_subscribers_run (max_subscribers : Nat) :
    ∀ j c, c + j = max_subscribers →
      admit_subscribers max_subscribers (j + 1) c = List.replicate j true ++ [false] := by
  intro j
  induction j with
  | zero =>
    intro c hc
    simp only [Nat.add_zero] at hc
    subst hc
    simp [admit_subscribers, validate]
  | succ j ih =>
    intro c hc
    have hv : validate c max_subscribers = none := by
      simp only [validate, ite_eq_right_iff]
      omega
    rw [admit_subscribers_succ_none (j + 1) hv, ih (c + 1) (by omega)]
    simp [List.replicate_succ]

/-- C7: a subscription request is refused with a 503 exactly when the
receiver count read before attaching has reached
`max_concurrent_subscribers`; starting from zero, `N` subscribers are
admitted and the `(N+1)`th attempt is refused. -/
theorem admission_control_503 :
    (∀ (receiver_count max_subscribers : Nat) (p : Option String) (q : QueryMap),
      serve_sse_response_handler receiver_count max_subscribers p q = .r503 ↔
        max_subscribers ≤ receiver_count)
    ∧ ∀ max_subscribers : Nat,
      admit_subscribers max_subscribers (max_subscribers + 1) 0 =
        List.replicate max_subscribers true ++ [false] := by
  constructor
  · intro rc maxs p q
    constructor
    · intro h
      by_contra hlt
      have hv : validate rc maxs = none := by
        simp only [validate, ite_eq_right_iff]
        omega
      cases hp : parse_url_props p q with
      | error r =>
        simp only [serve_sse_response_handler, hv, hp] at h
        subst h
        exact parse_url_props_not_503 p q hp
      | ok v =>
        obtain ⟨ef, sf, st⟩ := v
        simp only [serve_sse_response_handler, hv, hp] at h
        exact SseResponse.noConfusion h
    · intro hle
      have hv : validate rc maxs = some .r503 := by
        simp [validate, hle]
      simp [serve_sse_response_handler, hv]
  · intro maxs
    exact admit_subscribers_run maxs maxs 0 (by omega)

/-- C7 witness: with three attached receivers and a limit of three, a new
subscription on `/events/main` is refused; with a limit of one, the first
attempt is admitted and the second refused. -/
theorem admission_control_503_witness :
    serve_sse_response_handler 3 3 (some "main") [] = .r503
    ∧ admit_subscribers 1 2 0 = [true, false] := by
  have h := admission_control_503
  exact ⟨(h.1 3 3 (some "main") []).mpr (by decide), h.2 1⟩

/-- C8 (amended): a request whose final path element is not one of the five
recognized endpoints receives a 404, regardless of the query string,
provided the admission check passes (the receiver count is below the
limit); the admission check runs first, so at capacity even an unknown path
receives a 503. -/
theorem unknown_path_404_below_capacity (receiver_count max_subscribers : Nat)
    (path : String) (q : QueryMap)
    (hcap : receiver_count < max_subscribers)
    (hpath : path ∉ ["events", "main", "deploys", "sigs", "sidecar"]) :
    serve_sse_response_handler receiver_count max_subscribers (some path) q = .r404 := by
  have hv : validate receiver_count max_subscribers = none := by
    simp only [validate, ite_eq_right_iff]
    omega
  simp only [List.mem_cons, List.mem_singleton, not_or] at hpath
  obtain ⟨h1, h2, h3, h4, h5⟩ := hpath
  have hg : get_filter path = none := by
    simp [get_filter, h1, h2, h3, h4, h5]
  simp [serve_sse_response_handler, hv, parse_url_props, hg]

/-- C8 witness: below capacity, an unknown path yields a 404. -/
theorem unknown_path_404_below_capacity_witness :
    serve_sse_response_handler 0 1 (some "unknown") [] = .r404 :=
  unknown_path_404_below_capacity 0 1 "unknown" [] (by decide) (by decide)

/-- C8 counterexample: at (or above) subscriber capacity the admission check
answers first, so a request for an unknown path receives a 503, not the 404
the claim states for every subscriber count. -/
theorem unknown_path_503_at_capacity :
    serve_sse_response_handler 1 1 (some "unknown") [] = .r503
    ∧ serve_sse_response_handler 5 3 (some "unknown") [] = .r503 :=
  ⟨rfl, rfl⟩

/-- C6 (amended): `determine_id` rejects a `Some`-id event only when its
kind is `ApiVersion` (a `SidecarVersion` event with an id is accepted and
carries its decimal id); it rejects an id-less event of any other kind; an
id-less `ApiVersion` / `SidecarVersion` yields the empty id string. -/
theorem determine_id_characterization (e : ServerSentEvent) :
    (∀ i, e.id = some i → isApiVersionData e.data = true → determine_id e = none)
    ∧ (∀ i, e.id = some i → isApiVersionData e.data = false →
        determine_id e = some (toString i))
    ∧ (e.id = none → isVersionData e.data = false → determine_id e = none)
    ∧ (e.id = none → isVersionData e.data = true → determine_id e = some "") := by
  refine ⟨?_, ?_, ?_, ?_⟩
  · intro i hid hv
    cases hd : e.data <;> simp_all [determine_id, isApiVersionData]
  · intro i hid hv
    cases hd : e.data <;> simp_all [determine_id, isApiVersionData]
  · intro hid hv
    cases hd : e.data <;> simp_all [determine_id, isVersionData]
  · intro hid hv
    cases hd : e.data <;> simp_all [determine_id, isVersionData]

/-- C6 witness: the four regimes at concrete events. -/
theorem determine_id_characterization_witness :
    determine_id ⟨some 7, .ApiVersion "1.0.0", none, none⟩ = none
    ∧ determine_id ⟨some 7, .BlockAdded "h" "b", none, none⟩ = some "7"
    ∧ determine_id ⟨none, .BlockAdded "h" "b", none, none⟩ = none
    ∧ determine_id ⟨none, .SidecarVersion "1.1.0", none, none⟩ = some "" := by
  refine ⟨?_, ?_, ?_, ?_⟩
  · exact (determine_id_characterization ⟨some 7, .ApiVersion "1.0.0", none, none⟩).1 7 rfl rfl
  · exact (determine_id_characterization
      ⟨some 7, .BlockAdded "h" "b", none, none⟩).2.1 7 rfl rfl
  · exact (determine_id_characterization
      ⟨none, .BlockAdded "h" "b", none, none⟩).2.2.1 rfl rfl
  · exact (determine_id_characterization
      ⟨none, .SidecarVersion "1.1.0", none, none⟩).2.2.2 rfl rfl

/-- C6 counterexample: the claim says a `SidecarVersion` event carrying a
`Some` id is rejected; `determine_id` accepts it with its decimal id (only
`ApiVersion` is checked in the `Some` arm). -/
theorem determine_id_accepts_sidecar_version_with_id :
    determine_id ⟨some 5, .SidecarVersion "1.1.0", none, none⟩ = some "5" := rfl

/-- C9: `parse_query` accepts the empty query, rejects with 422 a query of
more than one entry, a single entry keyed other than `start_from`, and a
`start_from` value that does not parse as a `u32` (non-numeric, negative,
or above `u32::MAX`); it accepts a parsing value, the maximum included. -/
theorem parse_query_spec :
    parse_query [] = .ok none
    ∧ (∀ q : QueryMap, 1 < List.length q → parse_query q = .error .r422)
    ∧ (∀ k v, k ≠ "start_from" → parse_query [(k, v)] = .error .r422)
    ∧ (∀ v, parse_u32 v = none → parse_query [("start_from", v)] = .error .r422)
    ∧ (∀ v n, parse_u32 v = some n → parse_query [("start_from", v)] = .ok (some n))
    ∧ parse_u32 "4294967295" = some 4294967295
    ∧ parse_u32 "-1" = none
    ∧ parse_u32 "abc" = none
    ∧ parse_u32 "4294967296" = none := by
  refine ⟨rfl, ?_, ?_, ?_, ?_, rfl, rfl, rfl, rfl⟩
  · intro q hq
    have h0 : List.isEmpty q = false := by
      cases q with
      | nil => simp at hq
      | cons a t => rfl
    have h1 : decide (1 < List.length q) = true := decide_eq_true hq
    simp [parse_query, h0, h1]
  · intro k v hk
    simp [parse_query, QueryMap.get?, List.find?, hk]
  · intro v hv
    simp [parse_query, QueryMap.get?, List.find?, hv]
  · intro v n hv
    simp [parse_query, QueryMap.get?, List.find?, hv]

/-- C9 witness: the accepting and rejecting regimes at concrete queries. -/
theorem parse_query_spec_witness :
    parse_query [("start_from", "25"), ("other", "1")] = .error .r422
    ∧ parse_query [("other", "25")] = .error .r422
    ∧ parse_query [("start_from", "abc")] = .error .r422
    ∧ parse_query [("start_from", "4294967295")] = .ok (some 4294967295) := by
  have h := parse_query_spec
  exact ⟨h.2.1 [("start_from", "25"), ("other", "1")] (by decide),
    h.2.2.1 "other" "25" (by decide),
    h.2.2.2.1 "abc" rfl,
    h.2.2.2.2.1 "4294967295" 4294967295 rfl⟩

end CasperSidecar